import Mathlib

/-!
# Verification development for three CMSSW plug-in components

Shallow embedding of

* `RecoHGCal/TICL/plugins/TrackstersFromSimClustersProducer.cc`
  (`tracksterParticleTypeFromPdgId`, `TrackstersFromSimClustersProducer::produce`),
* `CondFormats/EcalObjects/src/EcalLaserAPDPNRatiosRefGPU.cc`
  (constructor and `getProduct`),
* `SimG4Core/PhysicsLists/plugins/FTFPCMS_BERT_EMM.cc` (constructor).

Conventions: C++ `int` is a Lean `Int` in the range `INT_MIN .. INT_MAX`, with an
explicit 32-bit wrap where the source computes a value that may leave the range;
`float`/`double` quantities are rationals (exact arithmetic), and a value that depends
on floating-point rounding is taken as a parameter; `std::vector` is a
`List`, with the allocated block made explicit where the source depends on it.
-/

namespace CMSSW

/-! ## Machine integers -/

/-- The value of `INT_MIN` for the 32-bit `int` of the target platforms. -/
def INT_MIN : Int := -2147483648

/-- The value of `INT_MAX` for the 32-bit `int` of the target platforms. -/
def INT_MAX : Int := 2147483647

/-- Reduction of a mathematical integer to the representable 32-bit two's-complement value. -/
def wrapInt32 (x : Int) : Int := (x + 2147483648) % 4294967296 - 2147483648

/-- The function `std::abs(int)`: the absolute value, wrapped to 32 bits (only
`INT_MIN` is affected by the wrap; the C++ standard leaves that case undefined). -/
def stdAbs (x : Int) : Int := wrapInt32 (if x < 0 then -x else x)

/-! ## `tracksterParticleTypeFromPdgId` -/

/-- The enumerators of `ticl::Trackster::ParticleType` that the producer names
(the header `DataFormats/HGCalReco/interface/Trackster.h` is not part of the
sources at hand). -/
inductive ParticleType where
  | photon
  | electron
  | muon
  | neutral_pion
  | charged_hadron
  | neutral_hadron
  | unknown
  deriving DecidableEq, Repr

/-- Embedding of `tracksterParticleTypeFromPdgId(int pdgId, int charge)`. -/
def tracksterParticleTypeFromPdgId (pdgId charge : Int) : ParticleType :=
  if pdgId = 111 then
    ParticleType.neutral_pion
  else
    let pdgId := stdAbs pdgId
    if pdgId = 22 then
      ParticleType.photon
    else if pdgId = 11 then
      ParticleType.electron
    else if pdgId = 13 then
      ParticleType.muon
    else
      let isHadron : Bool :=
        (decide (pdgId > 100) && decide (pdgId < 900)) ||
          (decide (pdgId > 1000) && decide (pdgId < 9000))
      if isHadron then
        if charge ≠ 0 then
          ParticleType.charged_hadron
        else
          ParticleType.neutral_hadron
      else
        ParticleType.unknown

/-! ## `TrackstersFromSimClustersProducer::produce` -/

/-- A `SimCluster`, reduced to the two members that `produce` reads: `pdgId()` and
`charge()` (the latter as the `int` received by `tracksterParticleTypeFromPdgId`). -/
structure SimCluster where
  pdgId : Int
  charge : Int
  deriving DecidableEq, Repr

/-- A key of the sim-to-reco association map, an `edm::Ref` to a sim cluster:
`id` is `key.id()`, `sc` is the sim cluster `*(key)` and `offset` is the distance
`&sc - &simclusters[0]` of that sim cluster from the start of `simclusters`. -/
structure SimClusterRef where
  id : Nat
  offset : Int
  sc : SimCluster
  deriving DecidableEq, Repr

/-- A `reco::CaloCluster` (a layer cluster), reduced to `energy()`. -/
structure CaloCluster where
  energy : ℚ
  deriving DecidableEq, Repr

/-- An `edm::Ref` to a layer cluster: `index` is `lc.index()` and `obj` is the
cluster reached by `lc->`. -/
structure LayerClusterRef where
  index : Nat
  obj : CaloCluster
  deriving DecidableEq, Repr

/-- One element of the `values` of an association entry: the layer-cluster reference
and `energyScorePair` (shared energy first, score second). -/
abbrev Association := LayerClusterRef × (ℚ × ℚ)

/-- The collection `hgcal::SimToRecoCollectionWithSimClusters` in iteration order:
each entry is a key with its associated layer clusters. -/
abbrev SimToRecoCollection := List (SimClusterRef × List Association)

/-- A `ticl::Trackster`, reduced to the members written by `produce`, plus `shape`,
which stands for every member written by `ticl::assignPCAtoTracksters`. -/
structure Trackster (S : Type) where
  vertices : List Nat
  vertex_multiplicity : List Nat
  id_probabilities : ParticleType → ℚ
  seedID : Nat
  seedIndex : Int
  shape : S

variable {S : Type}

/-- The default-constructed `Trackster`: no vertices, `shape0` for the shape members; the
probabilities and the seed are overwritten by `produce` before the trackster is stored. -/
def Trackster.init (shape0 : S) : Trackster S :=
  { vertices := [], vertex_multiplicity := [], id_probabilities := fun _ => 0,
    seedID := 0, seedIndex := -1, shape := shape0 }

/-- The member `Trackster::zeroProbabilities()`. -/
def Trackster.zeroProbabilities (t : Trackster S) : Trackster S :=
  { t with id_probabilities := fun _ => 0 }

/-- The member `Trackster::setIdProbability(type, value)`. -/
def Trackster.setIdProbability (t : Trackster S) (type : ParticleType) (value : ℚ) :
    Trackster S :=
  { t with id_probabilities := fun p => if p = type then value else t.id_probabilities p }

/-- The member `Trackster::setSeed(pid, index)`. -/
def Trackster.setSeed (t : Trackster S) (pid : Nat) (index : Int) : Trackster S :=
  { t with seedID := pid, seedIndex := index }

/-- Unchecked read `v[i]` of a `std::vector`: the element when `i` is in range; an
out-of-range read yields the unspecified value `oob i`. -/
def vectorRead (v : List ℚ) (oob : Nat → ℚ) (i : Nat) : ℚ :=
  match v[i]? with
  | some x => x
  | none => oob i

/-- Unchecked compound assignment `v[i] -= d` of a `std::vector`: an out-of-range
index leaves the elements of the vector as they are. -/
def vectorSubAssign (v : List ℚ) (i : Nat) (d : ℚ) : List ℚ :=
  match v[i]? with
  | some x => v.set i (x - d)
  | none => v

/-- Body of the inner loop of `produce` over `values`, on the state
`(tmpTrackster, output_mask)`. The quotient `fraction` is the exact rational one; a zero
layer-cluster energy (an infinite or NaN quotient in floating point) is outside exact
arithmetic, and the statements on the values of the mask assume non-zero energies.
The value `static_cast<uint8_t>(std::clamp(1. / fraction, 0., 255.))` is obtained in
double precision from the shared energy and the layer-cluster energy; its rounding is
not reproduced by exact arithmetic, so it is taken as the parameter `multiplicity`, a
function of these two numbers. -/
def innerStep (multiplicity : ℚ → ℚ → Nat) (inputClusterMask : List ℚ) (oob : Nat → ℚ)
    (st : Trackster S × List ℚ) (v : Association) : Trackster S × List ℚ :=
  let lc := v.1
  let energyScorePair := v.2
  let tmpTrackster := st.1
  let output_mask := st.2
  if vectorRead inputClusterMask oob lc.index > 0 then
    let tmpTrackster := { tmpTrackster with vertices := tmpTrackster.vertices ++ [lc.index] }
    let fraction : ℚ := energyScorePair.1 / lc.obj.energy
    let output_mask := vectorSubAssign output_mask lc.index fraction
    let tmpTrackster :=
      { tmpTrackster with
        vertex_multiplicity := tmpTrackster.vertex_multiplicity ++
          [multiplicity energyScorePair.1 lc.obj.energy] }
    (tmpTrackster, output_mask)
  else
    (tmpTrackster, output_mask)

/-- Body of the outer loop of `produce` over `simToRecoColl`, on the state
`(result, output_mask)`; the `reserve` calls change no contents. -/
def outerStep (shape0 : S) (multiplicity : ℚ → ℚ → Nat) (inputClusterMask : List ℚ)
    (oob : Nat → ℚ)
    (st : List (Trackster S) × List ℚ) (entry : SimClusterRef × List Association) :
    List (Trackster S) × List ℚ :=
  let key := entry.1
  let values := entry.2
  let sc := key.sc
  let simClusterIndex := key.offset
  let tmpTrackster : Trackster S := Trackster.init shape0
  let tmpTrackster := tmpTrackster.zeroProbabilities
  let inner := values.foldl (innerStep multiplicity inputClusterMask oob) (tmpTrackster, st.2)
  let tmpTrackster := inner.1
  let tmpTrackster :=
    tmpTrackster.setIdProbability (tracksterParticleTypeFromPdgId sc.pdgId sc.charge) 1
  let tmpTrackster := tmpTrackster.setSeed key.id simClusterIndex
  (st.1 ++ [tmpTrackster], inner.2)

/-- Modelled from the spec: `ticl::assignPCAtoTracksters` of `TrackstersPCA.h` is not
among the sources; the spec describes it as the collaborator that accumulates
shower-shape/PCA statistics for the tracksters. It is taken as the parameter `pca`,
which computes the shape members of each trackster of the vector in place. -/
def assignPCAtoTracksters (pca : Trackster S → S) (tracksters : List (Trackster S)) :
    List (Trackster S) :=
  tracksters.map (fun t => { t with shape := pca t })

/-- Embedding of `TrackstersFromSimClustersProducer::produce`: from the event products
(layer clusters, input mask, association map) to the two products put into the event,
the trackster vector and the output mask. -/
def produce (shape0 : S) (pca : Trackster S → S) (multiplicity : ℚ → ℚ → Nat)
    (layerClusters : List CaloCluster)
    (inputClusterMask : List ℚ) (oob : Nat → ℚ) (simToRecoColl : SimToRecoCollection) :
    List (Trackster S) × List ℚ :=
  let output_mask : List ℚ := List.replicate layerClusters.length 1
  let st := simToRecoColl.foldl (outerStep shape0 multiplicity inputClusterMask oob) ([], output_mask)
  let result := assignPCAtoTracksters pca st.1
  (result, st.2)

/-! ### Reference notions for the producer, written from the prose -/

/-- The associations of `values` that are accepted: those whose layer cluster has an
input-mask value strictly greater than 0. -/
def accepted (inputClusterMask : List ℚ) (oob : Nat → ℚ) (values : List Association) :
    List Association :=
  values.filter (fun v => decide (vectorRead inputClusterMask oob v.1.index > 0))

/-- The indices of the accepted layer clusters of `values`, in association order. -/
def acceptedIndices (inputClusterMask : List ℚ) (oob : Nat → ℚ) (values : List Association) :
    List Nat :=
  (accepted inputClusterMask oob values).map (fun v => v.1.index)

/-- The sum of `sharedEnergy / layerClusterEnergy` over the accepted associations of
`values` that point to layer cluster `i`. -/
def acceptedFraction (inputClusterMask : List ℚ) (oob : Nat → ℚ) (i : Nat)
    (values : List Association) : ℚ :=
  (((accepted inputClusterMask oob values).filter (fun v => decide (v.1.index = i))).map
    (fun v => v.2.1 / v.1.obj.energy)).sum

/-- Every association of the collection, of any sim cluster, in iteration order. -/
def allAssociations (simToRecoColl : SimToRecoCollection) : List Association :=
  (simToRecoColl.map (fun e => e.2)).flatten

/-! ## `EcalLaserAPDPNRatiosRefGPU` -/

/-- A `std::vector<float>` with its allocated block made explicit: `block` is the
storage owned by the vector (its length is the capacity; a slot that holds no value yet
is `none`) and `size` is the number of elements, what `size()` returns; the elements
`v[0] .. v[size-1]` are the first `size` slots of the block. -/
structure StdVector where
  block : List (Option ℚ)
  size : Nat
  deriving DecidableEq, Repr

/-- The default-constructed vector: nothing allocated, no elements. -/
def StdVector.empty : StdVector := { block := [], size := 0 }

/-- The member `capacity()`. -/
def StdVector.capacity (v : StdVector) : Nat := v.block.length

/-- The element `v[i]` for `i < size()`, `none` elsewhere. -/
def StdVector.elem (v : StdVector) (i : Nat) : Option ℚ :=
  if i < v.size then (v.block[i]?).join else none

/-- The member `reserve(n)`: when `n` exceeds the capacity the block is reallocated to
`n` slots, the elements moved over; the size is never changed. -/
def StdVector.reserve (v : StdVector) (n : Nat) : StdVector :=
  if n > v.capacity then
    { block := v.block.take v.size ++ List.replicate (n - v.size) none, size := v.size }
  else v

/-- Sequential write of the slot contents `src` into the slots of a block from position
`pos` on, as done through a raw output iterator or a device pointer; writes past the
end of the block are dropped. -/
def writeBlock : List (Option ℚ) → Nat → List (Option ℚ) → List (Option ℚ)
  | block, _, [] => block
  | block, pos, x :: rest => writeBlock (block.set pos x) (pos + 1) rest

/-- The call `std::copy(first, last, v.begin())` with `src` the range `first .. last`:
the values are assigned through the iterator `begin()`, slot after slot from the start
of the block; `std::copy` does not touch the size of the vector. -/
def stdCopyToBegin (src : List ℚ) (v : StdVector) : StdVector :=
  { block := writeBlock v.block 0 (src.map some), size := v.size }

/-- Modelled from the spec: the conditions object `EcalLaserAPDPNRatiosRef` (a
container of calibration constants, one per crystal) is not among the sources; the
constructor uses its `size()`, its iteration from `begin()` to `end()` and
`barrelItems()`. It is taken as the barrel items followed by the endcap items. -/
structure EcalLaserAPDPNRatiosRef where
  barrel : List ℚ
  endcap : List ℚ
  deriving DecidableEq, Repr

/-- The member `barrelItems()`. -/
def EcalLaserAPDPNRatiosRef.barrelItems (c : EcalLaserAPDPNRatiosRef) : List ℚ := c.barrel

/-- The iteration of the container from `begin()` to `end()`. -/
def EcalLaserAPDPNRatiosRef.items (c : EcalLaserAPDPNRatiosRef) : List ℚ :=
  c.barrel ++ c.endcap

/-- The member `size()`: the number of items of the iteration. -/
def EcalLaserAPDPNRatiosRef.size (c : EcalLaserAPDPNRatiosRef) : Nat := c.items.length

/-- The host-side members of `EcalLaserAPDPNRatiosRefGPU`. -/
structure EcalLaserAPDPNRatiosRefGPU where
  values_ : StdVector
  offset_ : Nat
  deriving DecidableEq, Repr

/-- Embedding of the constructor `EcalLaserAPDPNRatiosRefGPU(values)`:
`values_.reserve(values.size())`, then `std::copy(values.begin(), values.end(),
values_.begin())`, then `offset_ = values.barrelItems().size()`. -/
def EcalLaserAPDPNRatiosRefGPU.ctor (values : EcalLaserAPDPNRatiosRef) :
    EcalLaserAPDPNRatiosRefGPU :=
  let values_ := StdVector.empty
  let values_ := values_.reserve values.size
  let values_ := stdCopyToBegin values.items values_
  let offset_ := values.barrelItems.length
  { values_ := values_, offset_ := offset_ }

/-- The device-side `Product`: `values` is the device buffer (`none` for a slot not
written yet). -/
structure Product where
  values : List (Option ℚ)
  deriving DecidableEq, Repr

/-- The default-constructed `Product`: no device buffer. -/
def Product.empty : Product := { values := [] }

/-- Modelled from the spec: `cms::cuda::make_device_unique<float[]>(n, stream)` of the
CUDA utilities is not among the sources; it allocates a device buffer of `n` floats,
none of them written. -/
def make_device_unique (n : Nat) : List (Option ℚ) := List.replicate n none

/-- Modelled from the spec: `cms::cuda::copyAsync(dst, src, stream)` of the CUDA
utilities is not among the sources; it transfers the `src.size()` elements of the host
vector `src` to the start of the device buffer `dst`. -/
def copyAsync (dst : List (Option ℚ)) (src : StdVector) : List (Option ℚ) :=
  writeBlock dst 0 (src.block.take src.size)

/-- The fill function that `getProduct` hands to `dataForCurrentDeviceAsync`:
allocate, then transfer. -/
def getProductFill (self : EcalLaserAPDPNRatiosRefGPU) (product : Product) : Product :=
  let product := { product with values := make_device_unique self.values_.size }
  { product with values := copyAsync product.values self.values_ }

/-- Modelled from the spec: `dataForCurrentDeviceAsync` of the framework-managed
per-device cache is not among the sources; it returns the product held for the current
device, running the fill function on it first when it was not filled yet. -/
def dataForCurrentDeviceAsync (cached : Option Product) (fill : Product → Product) :
    Product :=
  match cached with
  | some product => product
  | none => fill Product.empty

/-- Embedding of `EcalLaserAPDPNRatiosRefGPU::getProduct`. -/
def EcalLaserAPDPNRatiosRefGPU.getProduct (self : EcalLaserAPDPNRatiosRefGPU)
    (cached : Option Product) : Product :=
  dataForCurrentDeviceAsync cached (getProductFill self)

/-- A vector is well formed when its elements fit in its block and are all written. -/
def StdVector.WellFormed (v : StdVector) : Prop :=
  v.size ≤ v.block.length ∧ ∀ s ∈ v.block.take v.size, s.isSome = true

instance (v : StdVector) : Decidable v.WellFormed := by
  unfold StdVector.WellFormed
  exact inferInstance

/-! ## `FTFPCMS_BERT_EMM` -/

/-- The parameters that the constructor reads from its `edm::ParameterSet`; a parameter
absent from the set is `none`. -/
structure ParameterSet where
  Verbosity : Option Int
  EMPhysics : Option Bool
  HadPhysics : Option Bool
  TrackingCut : Option Bool
  MaxTrackTime : Option ℚ
  EminFTFP : Option ℚ
  EmaxBERT : Option ℚ
  EmaxBERTpi : Option ℚ
  deriving DecidableEq, Repr

/-- The call `getUntrackedParameter<T>(name, default)`: the default when absent. -/
def getUntrackedParameter {α : Type} (x : Option α) (dflt : α) : α :=
  match x with
  | some a => a
  | none => dflt

/-- The call `getParameter<T>(name)`: throws when the parameter is absent (`none`). -/
def getParameter {α : Type} (x : Option α) : Option α := x

/-- The two CLHEP unit constants that the constructor multiplies by (CLHEP is an
external library; the values are taken as parameters). -/
structure Units where
  ns : ℚ
  GeV : ℚ
  deriving DecidableEq, Repr

/-- The physics constructors that the list can register, with their constructor
arguments; for `G4NeutronTrackingCut`, `timeLimit` is `none` until `SetTimeLimit`. -/
inductive PhysicsConstructor where
  | CMSEmStandardPhysicsLPM (ver : Int)
  | G4EmExtraPhysics (ver : Int)
  | G4DecayPhysics (ver : Int)
  | G4HadronElasticPhysics (ver : Int)
  | CMSHadronPhysicsFTFP_BERT106 (minFTFP maxBERT maxBERTpi : ℚ)
  | G4StoppingPhysics (ver : Int)
  | G4IonPhysics (ver : Int)
  | G4NeutronTrackingCut (ver : Int) (timeLimit : Option ℚ)
  deriving DecidableEq, Repr

/-- The member `G4NeutronTrackingCut::SetTimeLimit`. -/
def PhysicsConstructor.SetTimeLimit (c : PhysicsConstructor) (t : ℚ) : PhysicsConstructor :=
  match c with
  | PhysicsConstructor.G4NeutronTrackingCut ver _ =>
      PhysicsConstructor.G4NeutronTrackingCut ver (some t)
  | other => other

/-- Whether a constructor is a `G4NeutronTrackingCut`. -/
def PhysicsConstructor.isNeutronTrackingCut : PhysicsConstructor → Bool
  | PhysicsConstructor.G4NeutronTrackingCut _ _ => true
  | _ => false

/-- Whether a constructor is a `G4DecayPhysics`. -/
def PhysicsConstructor.isDecayPhysics : PhysicsConstructor → Bool
  | PhysicsConstructor.G4DecayPhysics _ => true
  | _ => false

/-- The state of the physics list under construction: the registered constructors in
registration order, and the verbosity given to `G4HadronicProcessStore` if any. -/
structure PhysicsList where
  registered : List PhysicsConstructor
  hadronicStoreVerbose : Option Int
  deriving DecidableEq, Repr

/-- The base-class constructor `PhysicsList(p)`: nothing registered. -/
def PhysicsList.base : PhysicsList := { registered := [], hadronicStoreVerbose := none }

/-- The member `RegisterPhysics` (Geant4, `G4VModularPhysicsList`): the constructor is
added at the end of the registered sequence. -/
def PhysicsList.RegisterPhysics (l : PhysicsList) (c : PhysicsConstructor) : PhysicsList :=
  { l with registered := l.registered ++ [c] }

/-- The call `G4HadronicProcessStore::Instance()->SetVerbose(ver)`. -/
def PhysicsList.SetHadronicVerbose (l : PhysicsList) (ver : Int) : PhysicsList :=
  { l with hadronicStoreVerbose := some ver }

/-- Embedding of the constructor `FTFPCMS_BERT_EMM::FTFPCMS_BERT_EMM(p)`: `none` when a
required parameter is absent (the constructor throws), otherwise the constructed list. -/
def FTFPCMS_BERT_EMM (u : Units) (p : ParameterSet) : Option PhysicsList :=
  let ver := getUntrackedParameter p.Verbosity 0
  let emPhys := getUntrackedParameter p.EMPhysics true
  let hadPhys := getUntrackedParameter p.HadPhysics true
  (getParameter p.TrackingCut).bind fun tracking =>
  (getParameter p.MaxTrackTime).bind fun maxTrackTime =>
  let timeLimit := maxTrackTime * u.ns
  (getParameter p.EminFTFP).bind fun eminFTFP =>
  let minFTFP := eminFTFP * u.GeV
  (getParameter p.EmaxBERT).bind fun emaxBERT =>
  let maxBERT := emaxBERT * u.GeV
  (getParameter p.EmaxBERTpi).bind fun emaxBERTpi =>
  let maxBERTpi := emaxBERTpi * u.GeV
  let this := PhysicsList.base
  let this :=
    if emPhys then
      let this := this.RegisterPhysics (PhysicsConstructor.CMSEmStandardPhysicsLPM ver)
      let gn := PhysicsConstructor.G4EmExtraPhysics ver
      this.RegisterPhysics gn
    else this
  let this := this.RegisterPhysics (PhysicsConstructor.G4DecayPhysics ver)
  let this :=
    if hadPhys then
      let this := this.SetHadronicVerbose ver
      let this := this.RegisterPhysics (PhysicsConstructor.G4HadronElasticPhysics ver)
      let this :=
        this.RegisterPhysics (PhysicsConstructor.CMSHadronPhysicsFTFP_BERT106 minFTFP maxBERT maxBERTpi)
      let this := this.RegisterPhysics (PhysicsConstructor.G4StoppingPhysics ver)
      let this := this.RegisterPhysics (PhysicsConstructor.G4IonPhysics ver)
      if tracking then
        let ncut := PhysicsConstructor.G4NeutronTrackingCut ver none
        let ncut := ncut.SetTimeLimit timeLimit
        this.RegisterPhysics ncut
      else this
    else this
  some this

/-- The reference sequence of the physics list without the neutron tracking cut,
written from the prose: the EM part, the decay physics, the hadronic part. -/
def referenceSequence (ver : Int) (emPhys hadPhys : Bool) (minFTFP maxBERT maxBERTpi : ℚ) :
    List PhysicsConstructor :=
  (if emPhys then
      [PhysicsConstructor.CMSEmStandardPhysicsLPM ver, PhysicsConstructor.G4EmExtraPhysics ver]
    else []) ++
  [PhysicsConstructor.G4DecayPhysics ver] ++
  (if hadPhys then
      [PhysicsConstructor.G4HadronElasticPhysics ver,
        PhysicsConstructor.CMSHadronPhysicsFTFP_BERT106 minFTFP maxBERT maxBERTpi,
        PhysicsConstructor.G4StoppingPhysics ver, PhysicsConstructor.G4IonPhysics ver]
    else [])

/-- The trackster that the prose describes for one association entry, before the shape
members are assigned: the vertices are the accepted layer-cluster indices, there is one
multiplicity per accepted layer cluster (the value that `multiplicity` gives for its
shared energy and energy), the identification probability is 1 for the
particle type of the sim cluster and 0 elsewhere, and the seed is the key. -/
def tracksterFromEntry (shape0 : S) (multiplicity : ℚ → ℚ → Nat) (inputClusterMask : List ℚ)
    (oob : Nat → ℚ)
    (entry : SimClusterRef × List Association) : Trackster S :=
  { vertices := acceptedIndices inputClusterMask oob entry.2
    vertex_multiplicity :=
      (accepted inputClusterMask oob entry.2).map
        (fun v => multiplicity v.2.1 v.1.obj.energy)
    id_probabilities := fun p =>
      if p = tracksterParticleTypeFromPdgId entry.1.sc.pdgId entry.1.sc.charge then 1 else 0
    seedID := entry.1.id
    seedIndex := entry.1.offset
    shape := shape0 }

/-- The indices of the layer clusters of `values` whose input-mask value is strictly
greater than 0, in association order, for indices that are valid in the mask. -/
def maskedInIndices (inputClusterMask : List ℚ) (values : List Association) : List Nat :=
  (values.filter (fun v => decide (inputClusterMask.getD v.1.index 0 > 0))).map
    (fun v => v.1.index)

/-- The sum of `sharedEnergy / layerClusterEnergy` over the associations of `values` to
layer cluster `i` whose input-mask value is strictly greater than 0. -/
def sharedFractionSum (inputClusterMask : List ℚ) (i : Nat) (values : List Association) : ℚ :=
  ((values.filter
      (fun v => decide (v.1.index = i) && decide (inputClusterMask.getD v.1.index 0 > 0))).map
    (fun v => v.2.1 / v.1.obj.energy)).sum

/-- The collection with the masked-out associations removed from every entry. -/
def dropMaskedOut (inputClusterMask : List ℚ) (simToRecoColl : SimToRecoCollection) :
    SimToRecoCollection :=
  simToRecoColl.map
    (fun e => (e.1, e.2.filter (fun v => decide (inputClusterMask.getD v.1.index 0 > 0))))

/-! ### A small event, used to instantiate the statements on `produce` -/

/-- Two layer clusters, of energies 10 and 4. -/
def sampleLayerClusters : List CaloCluster := [⟨10⟩, ⟨4⟩]

/-- The multiplicity written for the sample event: its only accepted association has
shared energy 5 over energy 10, whose inverse fraction is 2. -/
def sampleMultiplicity : ℚ → ℚ → Nat := fun _ _ => 2

/-- An input mask that keeps layer cluster 0 and masks out layer cluster 1. -/
def sampleMask : List ℚ := [1, 0]

/-- Two sim clusters: a charged pion associated to both layer clusters, and a photon
associated to the masked-out layer cluster only. -/
def sampleColl : SimToRecoCollection :=
  [(⟨7, 0, ⟨211, 1⟩⟩, [(⟨0, ⟨10⟩⟩, (5, 1)), (⟨1, ⟨4⟩⟩, (2, 1))]),
   (⟨7, 1, ⟨22, 0⟩⟩, [(⟨1, ⟨4⟩⟩, (4, 1))])]

/-- A parameter set with both physics flags and the tracking cut switched on. -/
def sampleParameterSet : ParameterSet :=
  { Verbosity := none, EMPhysics := some true, HadPhysics := some true,
    TrackingCut := some true, MaxTrackTime := some 2000, EminFTFP := some 3,
    EmaxBERT := some 6, EmaxBERTpi := some 12 }

/-- A parameter set with the hadronic physics switched off. -/
def sampleParameterSetNoHad : ParameterSet :=
  { sampleParameterSet with HadPhysics := some false }

/-- The CLHEP values of the two units: nanosecond 1, GeV 1000. -/
def sampleUnits : Units := { ns := 1, GeV := 1000 }

/-- The reference classification of a PDG code, written from the prose description:
the neutral pion code first, then by absolute value. -/
def particleTypeReference (pdgId charge : Int) : ParticleType :=
  if pdgId = 111 then ParticleType.neutral_pion
  else if |pdgId| = 22 then ParticleType.photon
  else if |pdgId| = 11 then ParticleType.electron
  else if |pdgId| = 13 then ParticleType.muon
  else if ((100 < |pdgId| ∧ |pdgId| < 900) ∨ (1000 < |pdgId| ∧ |pdgId| < 9000)) ∧ charge ≠ 0 then
    ParticleType.charged_hadron
  else if ((100 < |pdgId| ∧ |pdgId| < 900) ∨ (1000 < |pdgId| ∧ |pdgId| < 9000)) ∧ charge = 0 then
    ParticleType.neutral_hadron
  else ParticleType.unknown

/-! ### Lemmas on the integer model -/

theorem stdAbs_eq_abs (x : Int) (hlo : INT_MIN < x) (hhi : x ≤ INT_MAX) : stdAbs x = |x| := by
  unfold INT_MIN at hlo
  unfold INT_MAX at hhi
  unfold stdAbs wrapInt32
  split_ifs with h
  · rw [abs_of_neg h]; omega
  · rw [abs_of_nonneg (not_lt.mp h)]; omega

theorem stdAbs_neg (x : Int) (hlo : INT_MIN < x) (hhi : x ≤ INT_MAX) :
    stdAbs (-x) = stdAbs x := by
  have h1 : INT_MIN < -x := by unfold INT_MIN at *; unfold INT_MAX at hhi; omega
  have h2 : -x ≤ INT_MAX := by unfold INT_MIN at *; unfold INT_MAX at *; omega
  rw [stdAbs_eq_abs x hlo hhi, stdAbs_eq_abs (-x) h1 h2, abs_neg]

/-! ### Lemmas on the producer loops -/

theorem vectorRead_of_lt (v : List ℚ) (oob : Nat → ℚ) (i : Nat) (h : i < v.length) :
    vectorRead v oob i = v.getD i 0 := by
  unfold vectorRead
  rw [List.getD_eq_getElem?_getD, List.getElem?_eq_getElem h]
  rfl

theorem vectorSubAssign_length (v : List ℚ) (i : Nat) (d : ℚ) :
    (vectorSubAssign v i d).length = v.length := by
  unfold vectorSubAssign
  cases v[i]? <;> simp

theorem vectorSubAssign_getElem? (v : List ℚ) (i j : Nat) (d : ℚ) :
    (vectorSubAssign v j d)[i]? = if j = i then (v[i]?).map (fun x => x - d) else v[i]? := by
  unfold vectorSubAssign
  by_cases hji : j = i
  · subst hji
    cases h : v[j]? with
    | none => simp [h]
    | some x =>
      have hlt : j < v.length := by
        by_contra hge
        rw [List.getElem?_eq_none (not_lt.mp hge)] at h
        exact Option.noConfusion h
      simp [h, List.getElem?_set, hlt]
  · cases h : v[j]? with
    | none => simp [hji]
    | some x => simp [hji, List.getElem?_set]

theorem accepted_cons (mask : List ℚ) (oob : Nat → ℚ) (v : Association)
    (vs : List Association) :
    accepted mask oob (v :: vs) =
      if vectorRead mask oob v.1.index > 0 then v :: accepted mask oob vs
      else accepted mask oob vs := by
  unfold accepted
  by_cases h : vectorRead mask oob v.1.index > 0 <;> simp [List.filter_cons, h]

theorem accepted_append (mask : List ℚ) (oob : Nat → ℚ) (xs ys : List Association) :
    accepted mask oob (xs ++ ys) = accepted mask oob xs ++ accepted mask oob ys := by
  unfold accepted
  exact List.filter_append xs ys

theorem acceptedFraction_nil (mask : List ℚ) (oob : Nat → ℚ) (i : Nat) :
    acceptedFraction mask oob i [] = 0 := by
  simp [acceptedFraction, accepted]

theorem acceptedFraction_append (mask : List ℚ) (oob : Nat → ℚ) (i : Nat)
    (xs ys : List Association) :
    acceptedFraction mask oob i (xs ++ ys) =
      acceptedFraction mask oob i xs + acceptedFraction mask oob i ys := by
  simp [acceptedFraction, accepted_append, List.filter_append, List.map_append, List.sum_append]

theorem acceptedFraction_cons (mask : List ℚ) (oob : Nat → ℚ) (i : Nat) (v : Association)
    (vs : List Association) :
    acceptedFraction mask oob i (v :: vs) =
      (if vectorRead mask oob v.1.index > 0 ∧ v.1.index = i then v.2.1 / v.1.obj.energy else 0) +
        acceptedFraction mask oob i vs := by
  unfold acceptedFraction
  rw [accepted_cons]
  by_cases h : vectorRead mask oob v.1.index > 0
  · by_cases hi : v.1.index = i
    · subst hi
      simp [h, List.filter_cons]
    · simp [h, hi, List.filter_cons]
  · simp [h]

/-- The trackster built by the inner loop, whatever the output mask is. -/
theorem innerLoop_trackster (multiplicity : ℚ → ℚ → Nat) (mask : List ℚ) (oob : Nat → ℚ)
    (values : List Association) :
    ∀ (t : Trackster S) (m : List ℚ),
      (values.foldl (innerStep multiplicity mask oob) (t, m)).1 =
        { t with
          vertices := t.vertices ++ acceptedIndices mask oob values
          vertex_multiplicity := t.vertex_multiplicity ++
            (accepted mask oob values).map (fun v => multiplicity v.2.1 v.1.obj.energy) } := by
  induction values with
  | nil => intro t m; simp [acceptedIndices, accepted]
  | cons v vs ih =>
    intro t m
    rw [List.foldl_cons]
    by_cases h : vectorRead mask oob v.1.index > 0
    · simp only [innerStep, h, if_true, ih, acceptedIndices, accepted_cons, List.map_cons,
        List.append_assoc, List.singleton_append]
    · simp only [innerStep, h, if_false, ih, acceptedIndices, accepted_cons]

/-- The output mask left by the inner loop. -/
theorem innerLoop_mask (multiplicity : ℚ → ℚ → Nat) (mask : List ℚ) (oob : Nat → ℚ)
    (values : List Association) :
    ∀ (t : Trackster S) (m : List ℚ),
      (values.foldl (innerStep multiplicity mask oob) (t, m)).2.length = m.length ∧
      ∀ i, (values.foldl (innerStep multiplicity mask oob) (t, m)).2[i]? =
        (m[i]?).map (fun x => x - acceptedFraction mask oob i values) := by
  induction values with
  | nil =>
    intro t m
    refine ⟨rfl, fun i => ?_⟩
    simp [acceptedFraction_nil]
  | cons v vs ih =>
    intro t m
    rw [List.foldl_cons]
    by_cases h : vectorRead mask oob v.1.index > 0
    · simp only [innerStep, h, if_true]
      refine ⟨by rw [(ih _ _).1, vectorSubAssign_length], fun i => ?_⟩
      rw [(ih _ _).2, vectorSubAssign_getElem?, acceptedFraction_cons]
      by_cases hi : v.1.index = i
      · subst hi
        simp only [if_true, h, and_self, Option.map_map]
        congr 1
        funext x
        simp only [Function.comp]
        ring
      · simp [hi]
    · simp only [innerStep, h, if_false]
      refine ⟨(ih _ _).1, fun i => ?_⟩
      rw [(ih _ _).2, acceptedFraction_cons]
      simp [h]

theorem outerStep_fst (shape0 : S) (multiplicity : ℚ → ℚ → Nat) (mask : List ℚ)
    (oob : Nat → ℚ)
    (st : List (Trackster S) × List ℚ) (entry : SimClusterRef × List Association) :
    (outerStep shape0 multiplicity mask oob st entry).1 =
      st.1 ++ [tracksterFromEntry shape0 multiplicity mask oob entry] := by
  simp only [outerStep, innerLoop_trackster, tracksterFromEntry, Trackster.init,
    Trackster.zeroProbabilities, Trackster.setIdProbability, Trackster.setSeed,
    List.nil_append]

theorem outerStep_snd (shape0 : S) (multiplicity : ℚ → ℚ → Nat) (mask : List ℚ)
    (oob : Nat → ℚ)
    (st : List (Trackster S) × List ℚ) (entry : SimClusterRef × List Association) :
    (outerStep shape0 multiplicity mask oob st entry).2.length = st.2.length ∧
    ∀ i, (outerStep shape0 multiplicity mask oob st entry).2[i]? =
      (st.2[i]?).map (fun x => x - acceptedFraction mask oob i entry.2) := by
  simp only [outerStep]
  exact innerLoop_mask multiplicity mask oob entry.2 _ st.2

/-- The trackster vector built by the outer loop. -/
theorem outerLoop_fst (shape0 : S) (multiplicity : ℚ → ℚ → Nat) (mask : List ℚ)
    (oob : Nat → ℚ)
    (coll : SimToRecoCollection) :
    ∀ st : List (Trackster S) × List ℚ,
      (coll.foldl (outerStep shape0 multiplicity mask oob) st).1 =
        st.1 ++ coll.map (tracksterFromEntry shape0 multiplicity mask oob) := by
  induction coll with
  | nil => intro st; simp
  | cons e es ih =>
    intro st
    rw [List.foldl_cons, ih, outerStep_fst]
    simp

/-- The output mask left by the outer loop. -/
theorem outerLoop_snd (shape0 : S) (multiplicity : ℚ → ℚ → Nat) (mask : List ℚ)
    (oob : Nat → ℚ)
    (coll : SimToRecoCollection) :
    ∀ st : List (Trackster S) × List ℚ,
      (coll.foldl (outerStep shape0 multiplicity mask oob) st).2.length = st.2.length ∧
      ∀ i, (coll.foldl (outerStep shape0 multiplicity mask oob) st).2[i]? =
        (st.2[i]?).map (fun x => x - acceptedFraction mask oob i (allAssociations coll)) := by
  induction coll with
  | nil =>
    intro st
    refine ⟨rfl, fun i => ?_⟩
    simp [allAssociations, acceptedFraction_nil]
  | cons e es ih =>
    intro st
    rw [List.foldl_cons]
    refine ⟨by rw [(ih _).1, (outerStep_snd shape0 multiplicity mask oob st e).1], fun i => ?_⟩
    rw [(ih _).2, (outerStep_snd shape0 multiplicity mask oob st e).2]
    have hall : allAssociations (e :: es) = e.2 ++ allAssociations es := by
      simp [allAssociations]
    rw [hall, acceptedFraction_append, Option.map_map]
    congr 1
    funext x
    simp only [Function.comp]
    ring

theorem produce_fst (shape0 : S) (pca : Trackster S → S) (multiplicity : ℚ → ℚ → Nat)
    (layerClusters : List CaloCluster)
    (mask : List ℚ) (oob : Nat → ℚ) (coll : SimToRecoCollection) :
    (produce shape0 pca multiplicity layerClusters mask oob coll).1 =
      (coll.map (tracksterFromEntry shape0 multiplicity mask oob)).map (fun t => { t with shape := pca t }) := by
  simp only [produce, assignPCAtoTracksters, outerLoop_fst, List.nil_append]

theorem produce_snd (shape0 : S) (pca : Trackster S → S) (multiplicity : ℚ → ℚ → Nat)
    (layerClusters : List CaloCluster)
    (mask : List ℚ) (oob : Nat → ℚ) (coll : SimToRecoCollection) :
    (produce shape0 pca multiplicity layerClusters mask oob coll).2.length = layerClusters.length ∧
    ∀ i, (produce shape0 pca multiplicity layerClusters mask oob coll).2[i]? =
      ((List.replicate layerClusters.length (1 : ℚ))[i]?).map
        (fun x => x - acceptedFraction mask oob i (allAssociations coll)) := by
  simp only [produce]
  have h := outerLoop_snd shape0 multiplicity mask oob coll ([], List.replicate layerClusters.length (1 : ℚ))
  refine ⟨by rw [h.1]; simp, fun i => ?_⟩
  rw [h.2]

theorem accepted_eq_filter (mask : List ℚ) (oob : Nat → ℚ) (values : List Association)
    (hin : ∀ v ∈ values, v.1.index < mask.length) :
    accepted mask oob values =
      values.filter (fun v => decide (mask.getD v.1.index 0 > 0)) := by
  unfold accepted
  apply List.filter_congr
  intro v hv
  rw [vectorRead_of_lt mask oob v.1.index (hin v hv)]

theorem acceptedFraction_eq_sharedFractionSum (mask : List ℚ) (oob : Nat → ℚ) (i : Nat)
    (values : List Association) (hin : ∀ v ∈ values, v.1.index < mask.length) :
    acceptedFraction mask oob i values = sharedFractionSum mask i values := by
  unfold acceptedFraction sharedFractionSum
  rw [accepted_eq_filter mask oob values hin, List.filter_filter]

theorem allAssociations_dropMaskedOut (mask : List ℚ) (coll : SimToRecoCollection) :
    allAssociations (dropMaskedOut mask coll) =
      (allAssociations coll).filter (fun v => decide (mask.getD v.1.index 0 > 0)) := by
  induction coll with
  | nil => simp [allAssociations, dropMaskedOut]
  | cons e es ih =>
    simp only [allAssociations, dropMaskedOut, List.map_cons, List.flatten_cons,
      List.filter_append] at ih ⊢
    rw [ih]

theorem sharedFractionSum_filter (mask : List ℚ) (i : Nat) (values : List Association) :
    sharedFractionSum mask i (values.filter (fun v => decide (mask.getD v.1.index 0 > 0))) =
      sharedFractionSum mask i values := by
  unfold sharedFractionSum
  rw [List.filter_filter]
  congr 2
  apply List.filter_congr
  intro v _
  by_cases h1 : v.1.index = i <;> by_cases h2 : mask.getD v.1.index 0 > 0 <;> simp [h1, h2]

/-! ### Claims on `tracksterParticleTypeFromPdgId` -/

/-- C7: for every `int` value of `pdgId` other than `INT_MIN` and every charge,
`tracksterParticleTypeFromPdgId` returns the value of the reference classification:
neutral pion for 111, otherwise photon, electron, muon for absolute values 22, 11, 13,
charged or neutral hadron (by charge) for absolute values strictly between 100 and 900
or strictly between 1000 and 9000, and unknown in every other case. -/
theorem tracksterParticleTypeFromPdgId_eq_reference (pdgId charge : Int)
    (hlo : INT_MIN < pdgId) (hhi : pdgId ≤ INT_MAX) :
    tracksterParticleTypeFromPdgId pdgId charge = particleTypeReference pdgId charge := by
  unfold tracksterParticleTypeFromPdgId particleTypeReference
  simp only [stdAbs_eq_abs pdgId hlo hhi]
  by_cases h111 : pdgId = 111
  · simp [h111]
  · simp only [h111, if_false]
    by_cases h22 : |pdgId| = 22
    · simp [h22]
    · simp only [h22, if_false]
      by_cases h11 : |pdgId| = 11
      · simp [h11]
      · simp only [h11, if_false]
        by_cases h13 : |pdgId| = 13
        · simp [h13]
        · simp only [h13, if_false]
          by_cases hh : (100 < |pdgId| ∧ |pdgId| < 900) ∨ (1000 < |pdgId| ∧ |pdgId| < 9000)
          · by_cases hc : charge = 0 <;> simp [hh, hc]
          · simp [hh]

theorem tracksterParticleTypeFromPdgId_eq_reference_witness :
    tracksterParticleTypeFromPdgId (-211) 1 = particleTypeReference (-211) 1 :=
  tracksterParticleTypeFromPdgId_eq_reference (-211) 1 (by decide) (by decide)


/-! ### Claims on `produce` -/

/-- C1: `produce` builds exactly one trackster per entry of the association map: the
trackster vector has the length of the collection, its k-th element is the trackster
of the k-th entry (with the shape members assigned, and the multiplicities being
whatever the floating-point computation `multiplicity` yields for the accepted
clusters of that entry), and an entry whose layer clusters are all masked out still
yields one trackster, with no vertices. -/
theorem produce_one_trackster_per_entry (shape0 : S) (pca : Trackster S → S)
    (multiplicity : ℚ → ℚ → Nat) (layerClusters : List CaloCluster) (mask : List ℚ) (oob : Nat → ℚ)
    (coll : SimToRecoCollection) :
    (produce shape0 pca multiplicity layerClusters mask oob coll).1.length = coll.length ∧
    (∀ k (hk : k < coll.length),
      (produce shape0 pca multiplicity layerClusters mask oob coll).1[k]? =
        some { tracksterFromEntry shape0 multiplicity mask oob coll[k] with
               shape := pca (tracksterFromEntry shape0 multiplicity mask oob coll[k]) }) ∧
    (∀ k (hk : k < coll.length),
      (∀ v ∈ coll[k].2, vectorRead mask oob v.1.index ≤ 0) →
      ∃ t, (produce shape0 pca multiplicity layerClusters mask oob coll).1[k]? = some t ∧
        t.vertices = [] ∧ t.vertex_multiplicity = []) := by
  have hk_eq : ∀ k (hk : k < coll.length),
      (produce shape0 pca multiplicity layerClusters mask oob coll).1[k]? =
        some { tracksterFromEntry shape0 multiplicity mask oob coll[k] with
               shape := pca (tracksterFromEntry shape0 multiplicity mask oob coll[k]) } := by
    intro k hk
    rw [produce_fst, List.map_map, List.getElem?_map, List.getElem?_eq_getElem hk]
    rfl
  refine ⟨by rw [produce_fst]; simp, hk_eq, ?_⟩
  intro k hk hmasked
  refine ⟨_, hk_eq k hk, ?_, ?_⟩
  · have hnil : accepted mask oob coll[k].2 = [] := by
      unfold accepted
      rw [List.filter_eq_nil_iff]
      intro v hv
      have := hmasked v hv
      simp only [decide_eq_true_eq, gt_iff_lt, not_lt]
      exact this
    simp [tracksterFromEntry, acceptedIndices, hnil]
  · have hnil : accepted mask oob coll[k].2 = [] := by
      unfold accepted
      rw [List.filter_eq_nil_iff]
      intro v hv
      have := hmasked v hv
      simp only [decide_eq_true_eq, gt_iff_lt, not_lt]
      exact this
    simp [tracksterFromEntry, hnil]

/-- C2: for an association entry whose layer-cluster indices are all valid indices of
the input mask, the vertices of its trackster are exactly the indices of the associated
layer clusters whose input-mask value is strictly greater than 0, in association order,
and the vertex multiplicities have the same length as the vertices. -/
theorem produce_vertices (shape0 : S) (pca : Trackster S → S)
    (multiplicity : ℚ → ℚ → Nat) (layerClusters : List CaloCluster) (mask : List ℚ) (oob : Nat → ℚ)
    (coll : SimToRecoCollection) (k : Nat) (hk : k < coll.length)
    (hvalid : ∀ v ∈ coll[k].2, v.1.index < mask.length) :
    ∃ t, (produce shape0 pca multiplicity layerClusters mask oob coll).1[k]? = some t ∧
      t.vertices = maskedInIndices mask coll[k].2 ∧
      t.vertex_multiplicity.length = t.vertices.length := by
  refine ⟨{ tracksterFromEntry shape0 multiplicity mask oob coll[k] with
            shape := pca (tracksterFromEntry shape0 multiplicity mask oob coll[k]) }, ?_, ?_, ?_⟩
  · rw [produce_fst, List.map_map, List.getElem?_map, List.getElem?_eq_getElem hk]
    rfl
  · simp only [tracksterFromEntry, acceptedIndices, maskedInIndices]
    rw [accepted_eq_filter mask oob coll[k].2 hvalid]
  · simp [tracksterFromEntry, acceptedIndices]

/-- C9: the output mask has one entry per layer cluster and, when every associated index
is in range and every associated layer-cluster energy is non-zero, entry `i` equals 1
minus the sum of `sharedEnergy / layerClusterEnergy` over the associations to layer
cluster `i` whose input-mask value is greater than 0; an entry with no accepted
association stays at 1, and removing the masked-out associations changes nothing. -/
theorem produce_output_mask (shape0 : S) (pca : Trackster S → S)
    (multiplicity : ℚ → ℚ → Nat) (layerClusters : List CaloCluster) (mask : List ℚ) (oob : Nat → ℚ)
    (coll : SimToRecoCollection)
    (hin : ∀ v ∈ allAssociations coll,
      v.1.index < mask.length ∧ v.1.index < layerClusters.length)
    (_hen : ∀ v ∈ allAssociations coll, v.1.obj.energy ≠ 0) :
    (produce shape0 pca multiplicity layerClusters mask oob coll).2.length = layerClusters.length ∧
    (∀ i, i < layerClusters.length →
      (produce shape0 pca multiplicity layerClusters mask oob coll).2[i]? =
        some (1 - sharedFractionSum mask i (allAssociations coll))) ∧
    (∀ i, i < layerClusters.length →
      (∀ v ∈ allAssociations coll, v.1.index = i → mask.getD i 0 ≤ 0) →
      (produce shape0 pca multiplicity layerClusters mask oob coll).2[i]? = some 1) ∧
    (produce shape0 pca multiplicity layerClusters mask oob (dropMaskedOut mask coll)).2 =
      (produce shape0 pca multiplicity layerClusters mask oob coll).2 := by
  have hin1 : ∀ v ∈ allAssociations coll, v.1.index < mask.length := fun v hv => (hin v hv).1
  have hval : ∀ i, i < layerClusters.length →
      (produce shape0 pca multiplicity layerClusters mask oob coll).2[i]? =
        some (1 - sharedFractionSum mask i (allAssociations coll)) := by
    intro i hi
    rw [(produce_snd shape0 pca multiplicity layerClusters mask oob coll).2 i,
      acceptedFraction_eq_sharedFractionSum mask oob i _ hin1]
    simp [List.getElem?_replicate, hi]
  refine ⟨(produce_snd shape0 pca multiplicity layerClusters mask oob coll).1, hval, ?_, ?_⟩
  · intro i hi hnone
    rw [hval i hi]
    have hnil : (allAssociations coll).filter
        (fun v => decide (v.1.index = i) && decide (mask.getD v.1.index 0 > 0)) = [] := by
      rw [List.filter_eq_nil_iff]
      intro v hv
      by_cases hvi : v.1.index = i
      · have := hnone v hv hvi
        subst hvi
        simp only [Bool.and_eq_true, decide_eq_true_eq, gt_iff_lt, not_and, not_lt]
        intro _
        exact this
      · simp [hvi]
    unfold sharedFractionSum
    rw [hnil]
    simp
  · apply List.ext_getElem?
    intro i
    rw [(produce_snd shape0 pca multiplicity layerClusters mask oob coll).2 i,
      (produce_snd shape0 pca multiplicity layerClusters mask oob (dropMaskedOut mask coll)).2 i]
    have hin2 : ∀ v ∈ allAssociations (dropMaskedOut mask coll), v.1.index < mask.length := by
      intro v hv
      rw [allAssociations_dropMaskedOut] at hv
      exact hin1 v (List.mem_filter.mp hv).1
    rw [acceptedFraction_eq_sharedFractionSum mask oob i _ hin1,
      acceptedFraction_eq_sharedFractionSum mask oob i _ hin2,
      allAssociations_dropMaskedOut, sharedFractionSum_filter]


theorem produce_one_trackster_per_entry_witness :
    ∃ t, (produce () (fun _ => ()) sampleMultiplicity sampleLayerClusters sampleMask (fun _ => 0) sampleColl).1[1]? =
        some t ∧ t.vertices = [] ∧ t.vertex_multiplicity = [] :=
  (produce_one_trackster_per_entry () (fun _ => ()) sampleMultiplicity
    sampleLayerClusters sampleMask
    (fun _ => 0) sampleColl).2.2 1 (by decide)
    (by simp [sampleColl, sampleMask, vectorRead])

theorem produce_vertices_witness :
    ∃ t, (produce () (fun _ => ()) sampleMultiplicity sampleLayerClusters sampleMask (fun _ => 0) sampleColl).1[0]? =
        some t ∧ t.vertices = maskedInIndices sampleMask sampleColl[0].2 ∧
        t.vertex_multiplicity.length = t.vertices.length :=
  produce_vertices () (fun _ => ()) sampleMultiplicity
    sampleLayerClusters sampleMask (fun _ => 0) sampleColl 0
    (by decide) (by simp [sampleColl, sampleMask])

theorem produce_output_mask_witness :
    (produce () (fun _ => ()) sampleMultiplicity sampleLayerClusters sampleMask (fun _ => 0) sampleColl).2[0]? =
      some (1 - sharedFractionSum sampleMask 0 (allAssociations sampleColl)) :=
  (produce_output_mask () (fun _ => ()) sampleMultiplicity
    sampleLayerClusters sampleMask (fun _ => 0) sampleColl
    (by simp [sampleColl, sampleMask, sampleLayerClusters, allAssociations])
    (by simp [sampleColl, allAssociations])).2.1 0 (by decide)

/-- C8: `tracksterParticleTypeFromPdgId` gives the same result for `pdgId` and `-pdgId`
whenever the absolute value of `pdgId` is not 111 (and `pdgId` is not `INT_MIN`), while
111 is a neutral pion for every charge and -111 is never a neutral pion: it is a neutral
hadron for charge 0 and a charged hadron otherwise. -/
theorem tracksterParticleTypeFromPdgId_sign_flip :
    (∀ pdgId charge : Int, INT_MIN < pdgId → pdgId ≤ INT_MAX → |pdgId| ≠ 111 →
      tracksterParticleTypeFromPdgId pdgId charge =
        tracksterParticleTypeFromPdgId (-pdgId) charge) ∧
    (∀ charge : Int, tracksterParticleTypeFromPdgId 111 charge = ParticleType.neutral_pion) ∧
    (∀ charge : Int,
      tracksterParticleTypeFromPdgId (-111) charge ≠ ParticleType.neutral_pion ∧
      tracksterParticleTypeFromPdgId (-111) charge =
        if charge = 0 then ParticleType.neutral_hadron else ParticleType.charged_hadron) := by
  refine ⟨?_, ?_, ?_⟩
  · intro pdgId charge hlo hhi habs
    have h1 : pdgId ≠ 111 := by
      intro h
      apply habs
      rw [h]
      rfl
    have h2 : -pdgId ≠ 111 := by
      intro h
      apply habs
      have : pdgId = -111 := by omega
      rw [this]
      rfl
    unfold tracksterParticleTypeFromPdgId
    simp only [h1, h2, if_false, stdAbs_neg pdgId hlo hhi]
  · intro charge
    simp [tracksterParticleTypeFromPdgId]
  · intro charge
    have habs : stdAbs (-111) = 111 := by decide
    by_cases hc : charge = 0 <;>
      simp [tracksterParticleTypeFromPdgId, habs, hc]

theorem tracksterParticleTypeFromPdgId_sign_flip_witness :
    tracksterParticleTypeFromPdgId 2212 1 = tracksterParticleTypeFromPdgId (-2212) 1 :=
  tracksterParticleTypeFromPdgId_sign_flip.1 2212 1 (by decide) (by decide) (by decide)

/-! ### Claims on `EcalLaserAPDPNRatiosRefGPU` -/

theorem writeBlock_length (src : List (Option ℚ)) :
    ∀ (block : List (Option ℚ)) (pos : Nat), (writeBlock block pos src).length = block.length := by
  induction src with
  | nil => intro block pos; rfl
  | cons x rest ih => intro block pos; simp [writeBlock, ih]

theorem writeBlock_append (src : List (Option ℚ)) :
    ∀ (pre blk : List (Option ℚ)), src.length ≤ blk.length →
      writeBlock (pre ++ blk) pre.length src = pre ++ src ++ blk.drop src.length := by
  induction src with
  | nil => intro pre blk _; simp [writeBlock]
  | cons x rest ih =>
    intro pre blk hlen
    cases blk with
    | nil => simp at hlen
    | cons b bs =>
      simp only [List.length_cons, Nat.add_le_add_iff_right] at hlen
      have hset : (pre ++ b :: bs).set pre.length x = (pre ++ [x]) ++ bs := by
        simp [List.set_append]
      have hpos : pre.length + 1 = (pre ++ [x]).length := by simp
      simp only [writeBlock]
      rw [hset, hpos, ih (pre ++ [x]) bs hlen]
      simp

/-- The size of the host buffer after construction, for every input. -/
theorem ctor_values_size (values : EcalLaserAPDPNRatiosRef) :
    (EcalLaserAPDPNRatiosRefGPU.ctor values).values_.size = 0 := by
  simp only [EcalLaserAPDPNRatiosRefGPU.ctor, stdCopyToBegin, StdVector.reserve,
    StdVector.empty]
  split_ifs <;> rfl

/-- C3, evaluated on a container with a single barrel item: the input has size 1, yet
after construction the host buffer `values_` has size 0 and no element; the value was
written into reserved storage only. -/
theorem ctor_single_item :
    (EcalLaserAPDPNRatiosRef.mk [3] []).size = 1 ∧
    (EcalLaserAPDPNRatiosRefGPU.ctor (EcalLaserAPDPNRatiosRef.mk [3] [])).values_.size = 0 ∧
    (EcalLaserAPDPNRatiosRefGPU.ctor (EcalLaserAPDPNRatiosRef.mk [3] [])).values_.elem 0 = none ∧
    (EcalLaserAPDPNRatiosRefGPU.ctor (EcalLaserAPDPNRatiosRef.mk [3] [])).values_.block =
      [some 3] := by
  refine ⟨rfl, rfl, rfl, rfl⟩

/-- C5: the fill step of `getProduct` makes the device buffer a full copy of the host
buffer: it is allocated with `values_.size()` slots and after the transfer its i-th slot
holds the i-th element of `values_`, for every `i` below `values_.size()`. -/
theorem getProductFill_copies (self : EcalLaserAPDPNRatiosRefGPU) (product : Product)
    (hwf : self.values_.WellFormed) :
    (getProductFill self product).values.length = self.values_.size ∧
    ∀ i, i < self.values_.size →
      ∃ x, self.values_.elem i = some x ∧
        (getProductFill self product).values[i]? = some (some x) := by
  obtain ⟨hsize, hsome⟩ := hwf
  have htake : (self.values_.block.take self.values_.size).length = self.values_.size := by
    simp [List.length_take, hsize]
  have hfill : (getProductFill self product).values =
      self.values_.block.take self.values_.size := by
    simp only [getProductFill, copyAsync, make_device_unique]
    have h := writeBlock_append (self.values_.block.take self.values_.size) []
      (List.replicate self.values_.size none) (by simp [htake])
    simp only [List.nil_append, List.length_nil] at h
    rw [h, htake]
    simp
  refine ⟨by rw [hfill, htake], fun i hi => ?_⟩
  have hget : (self.values_.block.take self.values_.size)[i]? = self.values_.block[i]? := by
    rw [List.getElem?_take]
    simp [hi]
  have hlt : i < (self.values_.block.take self.values_.size).length := by rw [htake]; exact hi
  have hmem : (self.values_.block.take self.values_.size)[i] ∈
      self.values_.block.take self.values_.size := List.getElem_mem hlt
  have his := hsome _ hmem
  cases hx : (self.values_.block.take self.values_.size)[i] with
  | none => rw [hx] at his; exact absurd his (by simp)
  | some x =>
    have hix : (self.values_.block.take self.values_.size)[i]? = some (some x) := by
      rw [List.getElem?_eq_getElem hlt, hx]
    refine ⟨x, ?_, ?_⟩
    · simp only [StdVector.elem, hi, if_true]
      rw [← hget, hix]
      rfl
    · rw [hfill, hix]

theorem getProductFill_copies_witness :
    (getProductFill ⟨⟨[some 3, some 5, none], 2⟩, 1⟩ Product.empty).values.length = 2 ∧
    ∀ i, i < 2 →
      ∃ x, (StdVector.mk [some 3, some 5, none] 2).elem i = some x ∧
        (getProductFill ⟨⟨[some 3, some 5, none], 2⟩, 1⟩ Product.empty).values[i]? =
          some (some x) :=
  getProductFill_copies ⟨⟨[some 3, some 5, none], 2⟩, 1⟩ Product.empty
    (by simp [StdVector.WellFormed])


/-! ### Claims on `FTFPCMS_BERT_EMM` -/

/-- C4: with the required parameters present, the constructor succeeds and the
registered sequence, the neutron tracking cut left aside, is the EM pair when
`EMPhysics` is true, then `G4DecayPhysics` (exactly once in the whole sequence), then
the four hadronic constructors when `HadPhysics` is true. -/
theorem FTFPCMS_BERT_EMM_sequence (u : Units) (p : ParameterSet) (tracking : Bool)
    (maxTrackTime eminFTFP emaxBERT emaxBERTpi : ℚ)
    (hTracking : p.TrackingCut = some tracking)
    (hTime : p.MaxTrackTime = some maxTrackTime)
    (hMin : p.EminFTFP = some eminFTFP)
    (hMax : p.EmaxBERT = some emaxBERT)
    (hMaxPi : p.EmaxBERTpi = some emaxBERTpi) :
    ∃ l, FTFPCMS_BERT_EMM u p = some l ∧
      l.registered.filter (fun c => !c.isNeutronTrackingCut) =
        referenceSequence (getUntrackedParameter p.Verbosity 0)
          (getUntrackedParameter p.EMPhysics true) (getUntrackedParameter p.HadPhysics true)
          (eminFTFP * u.GeV) (emaxBERT * u.GeV) (emaxBERTpi * u.GeV) ∧
      (l.registered.filter (fun c => c.isDecayPhysics)).length = 1 := by
  refine ⟨_, by simp only [FTFPCMS_BERT_EMM, getParameter, hTracking, hTime, hMin, hMax,
    hMaxPi, Option.bind]; rfl, ?_, ?_⟩
  · cases getUntrackedParameter p.EMPhysics true <;>
      cases getUntrackedParameter p.HadPhysics true <;>
      cases tracking <;>
      simp [referenceSequence, PhysicsList.RegisterPhysics, PhysicsList.base,
        PhysicsList.SetHadronicVerbose, PhysicsConstructor.isNeutronTrackingCut,
        PhysicsConstructor.SetTimeLimit, List.filter_cons]
  · cases getUntrackedParameter p.EMPhysics true <;>
      cases getUntrackedParameter p.HadPhysics true <;>
      cases tracking <;>
      simp [PhysicsList.RegisterPhysics, PhysicsList.base,
        PhysicsList.SetHadronicVerbose, PhysicsConstructor.isDecayPhysics,
        PhysicsConstructor.SetTimeLimit, List.filter_cons]

theorem FTFPCMS_BERT_EMM_sequence_witness :
    ∃ l, FTFPCMS_BERT_EMM sampleUnits sampleParameterSet = some l ∧
      l.registered.filter (fun c => !c.isNeutronTrackingCut) =
        referenceSequence (getUntrackedParameter sampleParameterSet.Verbosity 0)
          (getUntrackedParameter sampleParameterSet.EMPhysics true)
          (getUntrackedParameter sampleParameterSet.HadPhysics true)
          (3 * sampleUnits.GeV) (6 * sampleUnits.GeV) (12 * sampleUnits.GeV) ∧
      (l.registered.filter (fun c => c.isDecayPhysics)).length = 1 :=
  FTFPCMS_BERT_EMM_sequence sampleUnits sampleParameterSet true 2000 3 6 12 rfl rfl rfl rfl rfl

/-- C6: with the required parameters present, a `G4NeutronTrackingCut` is registered if
and only if both `HadPhysics` and `TrackingCut` are true; when registered it is the last
constructor of the sequence, it occurs once and its time limit is `MaxTrackTime` in ns;
when `HadPhysics` is false the value of `TrackingCut` does not change the result. -/
theorem FTFPCMS_BERT_EMM_trackingCut (u : Units) (p : ParameterSet) (tracking : Bool)
    (maxTrackTime eminFTFP emaxBERT emaxBERTpi : ℚ)
    (hTracking : p.TrackingCut = some tracking)
    (hTime : p.MaxTrackTime = some maxTrackTime)
    (hMin : p.EminFTFP = some eminFTFP)
    (hMax : p.EmaxBERT = some emaxBERT)
    (hMaxPi : p.EmaxBERTpi = some emaxBERTpi) :
    ∃ l, FTFPCMS_BERT_EMM u p = some l ∧
      ((∃ c ∈ l.registered, c.isNeutronTrackingCut = true) ↔
        (getUntrackedParameter p.HadPhysics true = true ∧ tracking = true)) ∧
      (getUntrackedParameter p.HadPhysics true = true → tracking = true →
        l.registered.getLast? =
          some (PhysicsConstructor.G4NeutronTrackingCut (getUntrackedParameter p.Verbosity 0)
            (some (maxTrackTime * u.ns))) ∧
        (l.registered.filter (fun c => c.isNeutronTrackingCut)).length = 1) ∧
      (getUntrackedParameter p.HadPhysics true = false →
        ∀ other : Bool, FTFPCMS_BERT_EMM u { p with TrackingCut := some other } = some l) := by
  refine ⟨_, by simp only [FTFPCMS_BERT_EMM, getParameter, hTracking, hTime, hMin, hMax,
    hMaxPi, Option.bind]; rfl, ?_, ?_, ?_⟩
  · cases getUntrackedParameter p.EMPhysics true <;>
      cases getUntrackedParameter p.HadPhysics true <;>
      cases tracking <;>
      simp [PhysicsList.RegisterPhysics, PhysicsList.base,
        PhysicsList.SetHadronicVerbose, PhysicsConstructor.isNeutronTrackingCut,
        PhysicsConstructor.SetTimeLimit]
  · intro hHad hTrue
    rw [hHad, hTrue]
    cases getUntrackedParameter p.EMPhysics true <;>
      simp [PhysicsList.RegisterPhysics, PhysicsList.base,
        PhysicsList.SetHadronicVerbose, PhysicsConstructor.isNeutronTrackingCut,
        PhysicsConstructor.SetTimeLimit, List.filter_cons, List.getLast?]
  · intro hHad other
    simp only [FTFPCMS_BERT_EMM, getParameter, hTime, hMin, hMax, hMaxPi, Option.bind, hHad]
    rfl

theorem FTFPCMS_BERT_EMM_trackingCut_witness :
    (∃ l, FTFPCMS_BERT_EMM sampleUnits sampleParameterSet = some l ∧
      l.registered.getLast? =
        some (PhysicsConstructor.G4NeutronTrackingCut 0 (some (2000 * sampleUnits.ns)))) ∧
    FTFPCMS_BERT_EMM sampleUnits { sampleParameterSetNoHad with TrackingCut := some false } =
      FTFPCMS_BERT_EMM sampleUnits sampleParameterSetNoHad := by
  constructor
  · obtain ⟨l, hl, _, hlast, _⟩ :=
      FTFPCMS_BERT_EMM_trackingCut sampleUnits sampleParameterSet true 2000 3 6 12
        rfl rfl rfl rfl rfl
    exact ⟨l, hl, (hlast rfl rfl).1⟩
  · obtain ⟨l, hl, _, _, hsame⟩ :=
      FTFPCMS_BERT_EMM_trackingCut sampleUnits sampleParameterSetNoHad true 2000 3 6 12
        rfl rfl rfl rfl rfl
    rw [hl]
    exact hsame rfl false

end CMSSW
